import Mathlib

/-!
Verification of the FIREDETECTION user-selection core.

The Python source (`src/tasks/SelectUsers/task.py`) is shallowly embedded
here.  Machine floats are modelled by rationals, with `Val` adding the
`float('inf')` sentinel used by the OSRM error path; the two numeric
oracles of the pipeline (the haversine prefilter value and the OSRM route
result of each loop iteration) are parameters of the embedding, so every
theorem quantifies over all of their possible outputs.  The real-valued
haversine formula itself is embedded separately over `ℝ` at the end of the
file.
-/

namespace SelectUsers

/-- A Python float that is either finite (modelled as a rational) or the
`float('inf')` sentinel returned by the OSRM error path. -/
inductive Val where
  | fin : ℚ → Val
  | inf : Val
deriving DecidableEq

/-- Python `<=` on such floats (`inf <= inf` is true, `x <= inf` is true). -/
def Val.ble : Val → Val → Bool
  | .fin a, .fin b => a ≤ b
  | .fin _, .inf => true
  | .inf, .fin _ => false
  | .inf, .inf => true

/-- Python `v > c` for a float `v` against a finite threshold `c`
(`inf > c` is true). -/
def Val.bgt : Val → ℚ → Bool
  | .fin a, c => c < a
  | .inf, _ => true

/-- A candidate user record, as read from the JSON store: every field the
selection loop accesses via `user.get` is optional. -/
structure User where
  id : Option Nat
  latitude : Option ℚ
  longitude : Option ℚ
  status : Option String
  available : Option Bool
deriving DecidableEq

/-- `user.get('available', True)`. -/
def User.availD (u : User) : Bool := u.available.getD true

/-- `user.get('id', idx)`: the key under which per-user outputs are stored. -/
def userKey (idx : Nat) (u : User) : Nat := u.id.getD idx

/-- Outcome of one `calculate_distance` call: distance (km), duration (s)
and the truthiness of the raw OSRM response dict. -/
structure RouteResult where
  distance_km : Val
  duration_s : Val
  full_response : Bool
deriving DecidableEq

/-- The value returned by `calculate_distance` on any exception:
`(float('inf'), float('inf'), {})`. -/
def RouteResult.sentinel : RouteResult := ⟨Val.inf, Val.inf, false⟩

/-- The configuration fields of `TaskSelectUsers` that the selection loop
reads (the OSRM url and timeout are absorbed into the oracle parameter). -/
structure Config where
  selection_diameter_km : Option ℚ
  user_profile_selection : Option String
  filter_only_available : Bool
  sort_by : String
  euclidian_filter_km : Option ℚ

/-- A coordinate pair `(latitude, longitude)`. -/
abbrev Coord := ℚ × ℚ

/-- An entry of the `candidates` list: `(user, distance_km, duration_s,
full_response)`. -/
structure Cand where
  user : User
  distance_km : Val
  duration_s : Val
  full_response : Bool
deriving DecidableEq

/-- Python dict insertion `m[k] = v`: an existing key keeps its position and
gets the new value, a fresh key is appended at the end. -/
def dictInsert (m : List (Nat × α)) (k : Nat) (v : α) : List (Nat × α) :=
  if (m.map Prod.fst).contains k then
    m.map (fun p => if p.1 = k then (k, v) else p)
  else m ++ [(k, v)]

/-- Key insertion for the per-user timing dict (its values are wall-clock
times, opaque here, so only the key set is tracked). -/
def keysInsert (ks : List Nat) (k : Nat) : List Nat :=
  if ks.contains k then ks else ks ++ [k]

/-- The mutable state of the selection loop: the accumulating collections
and the metric counters. -/
structure SelState where
  candidates : List Cand
  osrm_results_map : List (Nat × (Val × Val))
  osrm_response_values : List Nat
  time_keys : List Nat
  status_filtered : Nat
  haversine_filtered : Nat
  diameter_filtered : Nat
  osrm_errors : Nat
  invalid_coordinates : Nat
deriving DecidableEq

/-- The state at the top of the loop: empty collections, zero counters. -/
def SelState.init : SelState := ⟨[], [], [], [], 0, 0, 0, 0, 0⟩

/-- Does the euclidian pre-filter reject location `loc`
(`haversine_dist > euclidian_filter_km`, only when configured)? -/
def havReject (cfg : Config) (hav : Coord → Coord → ℚ) (alert loc : Coord) : Bool :=
  match cfg.euclidian_filter_km with
  | some e => decide (e < hav alert loc)
  | none => false

/-- One iteration of the selection loop for the user at index `idx`,
mirroring lines 109-159 of the source: coordinate check, status filter,
euclidian pre-filter, OSRM call (`oracle idx`), error counting, result-map
and response bookkeeping, diameter filter, candidate accumulation. -/
def processUser (cfg : Config) (hav : Coord → Coord → ℚ) (oracle : Nat → RouteResult)
    (alert : Coord) (st : SelState) (idx : Nat) (user : User) : SelState :=
  match user.latitude, user.longitude with
  | some lat, some lon =>
    if user.status ≠ cfg.user_profile_selection then
      { st with status_filtered := st.status_filtered + 1 }
    else if havReject cfg hav alert (lat, lon) then
      { st with haversine_filtered := st.haversine_filtered + 1 }
    else
      let r := oracle idx
      let st1 :=
        if r.distance_km = Val.inf ∨ r.duration_s = Val.inf then
          { st with osrm_errors := st.osrm_errors + 1 }
        else st
      let key := userKey idx user
      let st2 :=
        { st1 with
          osrm_results_map := dictInsert st1.osrm_results_map key (r.distance_km, r.duration_s)
          time_keys := keysInsert st1.time_keys key }
      let st3 :=
        if r.full_response then
          { st2 with osrm_response_values := st2.osrm_response_values ++ [key] }
        else st2
      match cfg.selection_diameter_km with
      | some d =>
        if Val.bgt r.distance_km (d / 2) then
          { st3 with diameter_filtered := st3.diameter_filtered + 1 }
        else
          { st3 with candidates := st3.candidates ++ [⟨user, r.distance_km, r.duration_s, r.full_response⟩] }
      | none =>
        { st3 with candidates := st3.candidates ++ [⟨user, r.distance_km, r.duration_s, r.full_response⟩] }
  | _, _ => { st with invalid_coordinates := st.invalid_coordinates + 1 }

/-- The `for idx, user in enumerate(users)` loop, starting at index `i`. -/
def loop (cfg : Config) (hav : Coord → Coord → ℚ) (oracle : Nat → RouteResult)
    (alert : Coord) : Nat → List User → SelState → SelState
  | _, [], st => st
  | i, u :: rest, st => loop cfg hav oracle alert (i + 1) rest (processUser cfg hav oracle alert st i u)

/-- The sort key: `x[2]` (duration) when `sort_by == 'travel_time'`,
otherwise `x[1]` (distance). -/
def sortKey (cfg : Config) (c : Cand) : Val :=
  if cfg.sort_by = "travel_time" then c.duration_s else c.distance_km

/-- The comparator used to model Python stable ascending sort by key. -/
def candLE (cfg : Config) (a b : Cand) : Bool := Val.ble (sortKey cfg a) (sortKey cfg b)

/-- The availability/truncation loop over the sorted candidates: `k` is the
number already selected (mirrors appending then breaking once
`len(selected) >= num_users`). -/
def selLoop (fa : Bool) (n : Nat) : Nat → List Cand → List User
  | _, [] => []
  | k, c :: rest =>
    if fa && !c.user.availD then selLoop fa n k rest
    else if n ≤ k + 1 then [c.user]
    else c.user :: selLoop fa n (k + 1) rest

/-- The `filtering_metrics` dict assembled at lines 187-196. -/
structure FilteringMetrics where
  total_users : Nat
  invalid_coordinates : Nat
  status_filtered : Nat
  haversine_filtered : Nat
  osrm_errors : Nat
  diameter_filtered : Nat
  candidates : Nat
  selected : Nat
deriving DecidableEq

/-- The tuple returned by `select_nearest_available_users` (wall-clock
times are opaque; of the timing dict only the key set is kept). -/
structure SelectResult where
  selected : List User
  osrm_results_map : List (Nat × (Val × Val))
  osrm_response_values : List Nat
  time_keys : List Nat
  filtering_metrics : FilteringMetrics
deriving DecidableEq

/-- `select_nearest_available_users`: run the filtering loop over the
candidate pool, sort the surviving candidates by the configured key, apply
the availability filter and truncation, and assemble the metrics. -/
def select_nearest_available_users (cfg : Config) (hav : Coord → Coord → ℚ)
    (oracle : Nat → RouteResult) (alert : Coord) (num_users : Nat)
    (users : List User) : SelectResult :=
  let st := loop cfg hav oracle alert 0 users SelState.init
  let sorted_list := st.candidates.mergeSort (candLE cfg)
  let selected := selLoop cfg.filter_only_available num_users 0 sorted_list
  { selected := selected
    osrm_results_map := st.osrm_results_map
    osrm_response_values := st.osrm_response_values
    time_keys := st.time_keys
    filtering_metrics :=
      { total_users := users.length
        invalid_coordinates := st.invalid_coordinates
        status_filtered := st.status_filtered
        haversine_filtered := st.haversine_filtered
        osrm_errors := st.osrm_errors
        diameter_filtered := st.diameter_filtered
        candidates := st.candidates.length
        selected := selected.length } }

/-- The loop state after processing the whole pool. -/
def runState (cfg : Config) (hav : Coord → Coord → ℚ) (oracle : Nat → RouteResult)
    (alert : Coord) (users : List User) : SelState :=
  loop cfg hav oracle alert 0 users SelState.init

/-- The sorted eligible-candidate list (`sorted_list` in the source). -/
def sortedCands (cfg : Config) (hav : Coord → Coord → ℚ) (oracle : Nat → RouteResult)
    (alert : Coord) (users : List User) : List Cand :=
  (runState cfg hav oracle alert users).candidates.mergeSort (candLE cfg)

/-- The final `selected` list. -/
def selectedUsers (cfg : Config) (hav : Coord → Coord → ℚ) (oracle : Nat → RouteResult)
    (alert : Coord) (num_users : Nat) (users : List User) : List User :=
  selLoop cfg.filter_only_available num_users 0 (sortedCands cfg hav oracle alert users)

lemma select_eq (cfg : Config) (hav : Coord → Coord → ℚ) (oracle : Nat → RouteResult)
    (alert : Coord) (n : Nat) (users : List User) :
    select_nearest_available_users cfg hav oracle alert n users =
      { selected := selectedUsers cfg hav oracle alert n users
        osrm_results_map := (runState cfg hav oracle alert users).osrm_results_map
        osrm_response_values := (runState cfg hav oracle alert users).osrm_response_values
        time_keys := (runState cfg hav oracle alert users).time_keys
        filtering_metrics :=
          { total_users := users.length
            invalid_coordinates := (runState cfg hav oracle alert users).invalid_coordinates
            status_filtered := (runState cfg hav oracle alert users).status_filtered
            haversine_filtered := (runState cfg hav oracle alert users).haversine_filtered
            osrm_errors := (runState cfg hav oracle alert users).osrm_errors
            diameter_filtered := (runState cfg hav oracle alert users).diameter_filtered
            candidates := (runState cfg hav oracle alert users).candidates.length
            selected := (selectedUsers cfg hav oracle alert n users).length } } := rfl

/-! ### Closed-form characterization of the filtering loop -/

/-- Does a user pass the coordinate check, the status filter and the
euclidian pre-filter, i.e. reach the OSRM call (stage 4)? -/
def reachesOracle (cfg : Config) (hav : Coord → Coord → ℚ) (alert : Coord) (u : User) : Bool :=
  match u.latitude, u.longitude with
  | some lat, some lon =>
    (u.status == cfg.user_profile_selection) && !(havReject cfg hav alert (lat, lon))
  | _, _ => false

/-- The `(idx, user)` pairs that reach the OSRM call, the pool being
enumerated from `i`. -/
def stage4Pairs (cfg : Config) (hav : Coord → Coord → ℚ) (alert : Coord)
    (i : Nat) (us : List User) : List (Nat × User) :=
  (us.enumFrom i).filter (fun p => reachesOracle cfg hav alert p.2)

/-- Does a route distance pass the diameter filter? -/
def diamPass (cfg : Config) (dist : Val) : Bool :=
  match cfg.selection_diameter_km with
  | some d => !(Val.bgt dist (d / 2))
  | none => true

/-- The candidate tuple built for a stage-4 pair. -/
def mkCand (oracle : Nat → RouteResult) (p : Nat × User) : Cand :=
  ⟨p.2, (oracle p.1).distance_km, (oracle p.1).duration_s, (oracle p.1).full_response⟩

/-- The key of a stage-4 pair. -/
def pairKey (p : Nat × User) : Nat := userKey p.1 p.2

lemma enumFrom_cons_eq (n : Nat) (a : α) (as : List α) :
    List.enumFrom n (a :: as) = (n, a) :: List.enumFrom (n + 1) as := rfl

lemma processUser_collections_not_reach (cfg : Config) (hav : Coord → Coord → ℚ)
    (oracle : Nat → RouteResult) (alert : Coord) (st : SelState) (i : Nat) (u : User)
    (h : reachesOracle cfg hav alert u = false) :
    (processUser cfg hav oracle alert st i u).candidates = st.candidates ∧
    (processUser cfg hav oracle alert st i u).osrm_results_map = st.osrm_results_map ∧
    (processUser cfg hav oracle alert st i u).osrm_response_values = st.osrm_response_values ∧
    (processUser cfg hav oracle alert st i u).time_keys = st.time_keys := by
  unfold processUser
  cases hla : u.latitude <;> cases hlo : u.longitude
  case some.some lat lon =>
    simp only [reachesOracle, hla, hlo] at h
    by_cases hs : u.status = cfg.user_profile_selection
    · have hr : havReject cfg hav alert (lat, lon) = true := by
        cases hhr : havReject cfg hav alert (lat, lon)
        · simp [hs, hhr] at h
        · rfl
      simp [hs, hr]
    · simp [hs]
  all_goals simp

lemma processUser_reach (cfg : Config) (hav : Coord → Coord → ℚ)
    (oracle : Nat → RouteResult) (alert : Coord) (st : SelState) (i : Nat) (u : User)
    (h : reachesOracle cfg hav alert u = true) :
    (processUser cfg hav oracle alert st i u).candidates =
      (st.candidates ++ if diamPass cfg (oracle i).distance_km then [mkCand oracle (i, u)] else []) ∧
    (processUser cfg hav oracle alert st i u).osrm_results_map =
      dictInsert st.osrm_results_map (userKey i u) ((oracle i).distance_km, (oracle i).duration_s) ∧
    (processUser cfg hav oracle alert st i u).osrm_response_values =
      (st.osrm_response_values ++ if (oracle i).full_response then [userKey i u] else []) ∧
    (processUser cfg hav oracle alert st i u).time_keys = keysInsert st.time_keys (userKey i u) := by
  unfold processUser
  cases hla : u.latitude <;> cases hlo : u.longitude
  case some.some lat lon =>
    simp only [reachesOracle, hla, hlo, Bool.and_eq_true, beq_iff_eq,
      Bool.not_eq_eq_eq_not, Bool.not_true] at h
    obtain ⟨hs, hr⟩ := h
    simp only [hs, ne_eq, not_true_eq_false, if_false, hr, Bool.false_eq_true, diamPass, mkCand]
    cases hdp : cfg.selection_diameter_km <;>
      (repeat' split) <;> simp_all
  all_goals simp [reachesOracle, hla, hlo] at h

lemma loop_candidates (cfg : Config) (hav : Coord → Coord → ℚ)
    (oracle : Nat → RouteResult) (alert : Coord) :
    ∀ (us : List User) (i : Nat) (st : SelState),
      (loop cfg hav oracle alert i us st).candidates =
        st.candidates ++
          (((stage4Pairs cfg hav alert i us).filter
            (fun p => diamPass cfg (oracle p.1).distance_km)).map (mkCand oracle))
  | [], _, _ => by simp [stage4Pairs, loop, List.enumFrom]
  | u :: rest, i, st => by
    rw [loop, loop_candidates cfg hav oracle alert rest (i + 1)]
    cases hreach : reachesOracle cfg hav alert u
    · rw [(processUser_collections_not_reach cfg hav oracle alert st i u hreach).1]
      simp [stage4Pairs, enumFrom_cons_eq, List.filter_cons, hreach]
    · rw [(processUser_reach cfg hav oracle alert st i u hreach).1]
      simp only [stage4Pairs, enumFrom_cons_eq, List.filter_cons, hreach]
      cases hdp : diamPass cfg (oracle i).distance_km <;>
        simp [List.filter_cons, hdp, List.append_assoc]

lemma loop_results_map (cfg : Config) (hav : Coord → Coord → ℚ)
    (oracle : Nat → RouteResult) (alert : Coord) :
    ∀ (us : List User) (i : Nat) (st : SelState),
      (loop cfg hav oracle alert i us st).osrm_results_map =
        (stage4Pairs cfg hav alert i us).foldl
          (fun m p => dictInsert m (pairKey p) ((oracle p.1).distance_km, (oracle p.1).duration_s))
          st.osrm_results_map
  | [], _, _ => by simp [stage4Pairs, loop, List.enumFrom]
  | u :: rest, i, st => by
    rw [loop, loop_results_map cfg hav oracle alert rest (i + 1)]
    cases hreach : reachesOracle cfg hav alert u
    · rw [(processUser_collections_not_reach cfg hav oracle alert st i u hreach).2.1]
      simp [stage4Pairs, enumFrom_cons_eq, List.filter_cons, hreach]
    · rw [(processUser_reach cfg hav oracle alert st i u hreach).2.1]
      simp [stage4Pairs, enumFrom_cons_eq, List.filter_cons, hreach, pairKey]

lemma loop_response_values (cfg : Config) (hav : Coord → Coord → ℚ)
    (oracle : Nat → RouteResult) (alert : Coord) :
    ∀ (us : List User) (i : Nat) (st : SelState),
      (loop cfg hav oracle alert i us st).osrm_response_values =
        st.osrm_response_values ++
          (((stage4Pairs cfg hav alert i us).filter
            (fun p => (oracle p.1).full_response)).map pairKey)
  | [], _, _ => by simp [stage4Pairs, loop, List.enumFrom]
  | u :: rest, i, st => by
    rw [loop, loop_response_values cfg hav oracle alert rest (i + 1)]
    cases hreach : reachesOracle cfg hav alert u
    · rw [(processUser_collections_not_reach cfg hav oracle alert st i u hreach).2.2.1]
      simp [stage4Pairs, enumFrom_cons_eq, List.filter_cons, hreach]
    · rw [(processUser_reach cfg hav oracle alert st i u hreach).2.2.1]
      simp only [stage4Pairs, enumFrom_cons_eq, List.filter_cons, hreach]
      cases hfr : (oracle i).full_response <;>
        simp [List.filter_cons, hfr, pairKey, List.append_assoc]

lemma loop_time_keys (cfg : Config) (hav : Coord → Coord → ℚ)
    (oracle : Nat → RouteResult) (alert : Coord) :
    ∀ (us : List User) (i : Nat) (st : SelState),
      (loop cfg hav oracle alert i us st).time_keys =
        (stage4Pairs cfg hav alert i us).foldl
          (fun ks p => keysInsert ks (pairKey p)) st.time_keys
  | [], _, _ => by simp [stage4Pairs, loop, List.enumFrom]
  | u :: rest, i, st => by
    rw [loop, loop_time_keys cfg hav oracle alert rest (i + 1)]
    cases hreach : reachesOracle cfg hav alert u
    · rw [(processUser_collections_not_reach cfg hav oracle alert st i u hreach).2.2.2]
      simp [stage4Pairs, enumFrom_cons_eq, List.filter_cons, hreach]
    · rw [(processUser_reach cfg hav oracle alert st i u hreach).2.2.2]
      simp [stage4Pairs, enumFrom_cons_eq, List.filter_cons, hreach, pairKey]

/-! ### Shared concrete fixtures used by witnesses and counterexamples -/

/-- A config with a 10 km diameter filter, no euclidian prefilter. -/
def cfgD : Config := ⟨some 10, some "driving", true, "distance", none⟩

/-- A config with no diameter filter at all. -/
def cfgN : Config := ⟨none, some "driving", true, "distance", none⟩

/-- A trivial haversine stub (the prefilter is off in the fixtures). -/
def hav0 : Coord → Coord → ℚ := fun _ _ => 0

/-- An oracle that always succeeds with a 3 km / 60 s route. -/
def okOracle : Nat → RouteResult := fun _ => ⟨Val.fin 3, Val.fin 60, true⟩

/-- An oracle whose every call fails with the sentinel. -/
def failOracle : Nat → RouteResult := fun _ => RouteResult.sentinel

/-- A plain valid, available, driving user. -/
def uA : User := ⟨some 1, some 1, some 2, some "driving", some true⟩

/-! ### C1: the metrics accounting identity -/

/-- The sum of the four exclusive rejection counters plus the eligible
candidate count. -/
def SelState.primarySum (st : SelState) : Nat :=
  st.invalid_coordinates + st.status_filtered + st.haversine_filtered +
    st.diameter_filtered + st.candidates.length

lemma primarySum_processUser (cfg : Config) (hav : Coord → Coord → ℚ)
    (oracle : Nat → RouteResult) (alert : Coord) (st : SelState) (idx : Nat) (u : User) :
    (processUser cfg hav oracle alert st idx u).primarySum = st.primarySum + 1 := by
  unfold processUser
  cases u.latitude <;> cases u.longitude <;>
    simp only [SelState.primarySum] <;>
    (try (repeat' split)) <;>
    simp_arith [SelState.primarySum]

lemma primarySum_loop (cfg : Config) (hav : Coord → Coord → ℚ)
    (oracle : Nat → RouteResult) (alert : Coord) :
    ∀ (us : List User) (i : Nat) (st : SelState),
      (loop cfg hav oracle alert i us st).primarySum = st.primarySum + us.length
  | [], _, _ => rfl
  | u :: rest, i, st => by
    rw [loop, primarySum_loop cfg hav oracle alert rest (i + 1) _,
      primarySum_processUser]
    simp_arith

lemma errors_diam_processUser (cfg : Config) (hav : Coord → Coord → ℚ)
    (oracle : Nat → RouteResult) (alert : Coord) (st : SelState) (idx : Nat) (u : User)
    (d : ℚ) (hd : cfg.selection_diameter_km = some d)
    (hcons : ∀ i, (oracle i).duration_s = Val.inf → (oracle i).distance_km = Val.inf) :
    (processUser cfg hav oracle alert st idx u).osrm_errors + st.diameter_filtered ≤
      st.osrm_errors + (processUser cfg hav oracle alert st idx u).diameter_filtered := by
  have hc := hcons idx
  unfold processUser
  cases u.latitude <;> cases u.longitude <;> simp only [hd] <;>
    first
      | (simp; done)
      | (rcases hdist : (oracle idx).distance_km with q | _ <;>
          rcases hdur : (oracle idx).duration_s with p | _ <;>
          simp_all [Val.bgt] <;> (try (repeat' split)) <;> simp_all <;> omega)

lemma errors_diam_loop (cfg : Config) (hav : Coord → Coord → ℚ)
    (oracle : Nat → RouteResult) (alert : Coord)
    (d : ℚ) (hd : cfg.selection_diameter_km = some d)
    (hcons : ∀ i, (oracle i).duration_s = Val.inf → (oracle i).distance_km = Val.inf) :
    ∀ (us : List User) (i : Nat) (st : SelState),
      (loop cfg hav oracle alert i us st).osrm_errors + st.diameter_filtered ≤
        st.osrm_errors + (loop cfg hav oracle alert i us st).diameter_filtered
  | [], _, _ => le_refl _
  | u :: rest, i, st => by
    rw [loop]
    have h1 := errors_diam_processUser cfg hav oracle alert st i u d hd hcons
    have h2 := errors_diam_loop cfg hav oracle alert d hd hcons rest (i + 1)
      (processUser cfg hav oracle alert st i u)
    omega

/-- C1: for every input candidate list, configuration, haversine values and
oracle outcomes, the filtering metrics satisfy the accounting identity
`total_users = invalid_coordinates + status_filtered + haversine_filtered +
diameter_filtered + candidates`; moreover `osrm_errors` overlaps
non-exclusively with `diameter_filtered`: when a diameter filter is
configured (and an infinite duration only ever comes with an infinite
distance, as the oracle's error path guarantees), every oracle error also
increments the diameter counter, so `osrm_errors ≤ diameter_filtered`. -/
theorem c1_metrics_accounting (cfg : Config) (hav : Coord → Coord → ℚ)
    (oracle : Nat → RouteResult) (alert : Coord) (n : Nat) (users : List User) :
    ((select_nearest_available_users cfg hav oracle alert n users).filtering_metrics.total_users =
      (select_nearest_available_users cfg hav oracle alert n users).filtering_metrics.invalid_coordinates +
      (select_nearest_available_users cfg hav oracle alert n users).filtering_metrics.status_filtered +
      (select_nearest_available_users cfg hav oracle alert n users).filtering_metrics.haversine_filtered +
      (select_nearest_available_users cfg hav oracle alert n users).filtering_metrics.diameter_filtered +
      (select_nearest_available_users cfg hav oracle alert n users).filtering_metrics.candidates) ∧
    (∀ d : ℚ, cfg.selection_diameter_km = some d →
      (∀ i, (oracle i).duration_s = Val.inf → (oracle i).distance_km = Val.inf) →
      (select_nearest_available_users cfg hav oracle alert n users).filtering_metrics.osrm_errors ≤
        (select_nearest_available_users cfg hav oracle alert n users).filtering_metrics.diameter_filtered) := by
  rw [select_eq]
  constructor
  · have h := primarySum_loop cfg hav oracle alert users 0 SelState.init
    simp only [SelState.primarySum] at h
    simp only [runState]
    simp only [SelState.init] at h ⊢
    simp at h
    omega
  · intro d hd hcons
    have h := errors_diam_loop cfg hav oracle alert d hd hcons users 0 SelState.init
    simp only [runState]
    simp only [SelState.init] at h ⊢
    simp at h
    omega

/-- Witness for C1 at a concrete input: one user, diameter 10 km, failing
oracle. -/
theorem c1_metrics_accounting_witness :
    ((select_nearest_available_users cfgD hav0 failOracle (0, 0) 2 [uA]).filtering_metrics.total_users =
      (select_nearest_available_users cfgD hav0 failOracle (0, 0) 2 [uA]).filtering_metrics.invalid_coordinates +
      (select_nearest_available_users cfgD hav0 failOracle (0, 0) 2 [uA]).filtering_metrics.status_filtered +
      (select_nearest_available_users cfgD hav0 failOracle (0, 0) 2 [uA]).filtering_metrics.haversine_filtered +
      (select_nearest_available_users cfgD hav0 failOracle (0, 0) 2 [uA]).filtering_metrics.diameter_filtered +
      (select_nearest_available_users cfgD hav0 failOracle (0, 0) 2 [uA]).filtering_metrics.candidates) ∧
    (select_nearest_available_users cfgD hav0 failOracle (0, 0) 2 [uA]).filtering_metrics.osrm_errors ≤
      (select_nearest_available_users cfgD hav0 failOracle (0, 0) 2 [uA]).filtering_metrics.diameter_filtered := by
  have h := c1_metrics_accounting cfgD hav0 failOracle (0, 0) 2 [uA]
  exact ⟨h.1, h.2 10 rfl (fun i _ => rfl)⟩

/-! ### C7: empty candidate pool -/

/-- C7: for an empty candidate pool the function returns (without any
failure — it is total by construction) an empty selected list, empty
result maps and all-zero metrics. -/
theorem c7_empty_pool (cfg : Config) (hav : Coord → Coord → ℚ)
    (oracle : Nat → RouteResult) (alert : Coord) (n : Nat) :
    select_nearest_available_users cfg hav oracle alert n [] =
      { selected := []
        osrm_results_map := []
        osrm_response_values := []
        time_keys := []
        filtering_metrics := ⟨0, 0, 0, 0, 0, 0, 0, 0⟩ } := by
  simp [select_nearest_available_users, loop, SelState.init, selLoop]

/-! ### C5: the diameter filter boundary -/

lemma processUser_reach_diam (cfg : Config) (hav : Coord → Coord → ℚ)
    (oracle : Nat → RouteResult) (alert : Coord) (st : SelState) (i : Nat) (u : User)
    (h : reachesOracle cfg hav alert u = true) :
    (processUser cfg hav oracle alert st i u).diameter_filtered =
      st.diameter_filtered + (if diamPass cfg (oracle i).distance_km then 0 else 1) := by
  unfold processUser
  cases hla : u.latitude <;> cases hlo : u.longitude
  case some.some lat lon =>
    simp only [reachesOracle, hla, hlo, Bool.and_eq_true, beq_iff_eq,
      Bool.not_eq_eq_eq_not, Bool.not_true] at h
    obtain ⟨hs, hr⟩ := h
    cases hdp : cfg.selection_diameter_km with
    | none =>
      by_cases herr : (oracle i).distance_km = Val.inf ∨ (oracle i).duration_s = Val.inf <;>
        cases hfr : (oracle i).full_response <;>
          simp [hs, hr, herr, hfr, diamPass, hdp]
    | some d =>
      by_cases herr : (oracle i).distance_km = Val.inf ∨ (oracle i).duration_s = Val.inf <;>
        cases hfr : (oracle i).full_response <;>
          cases hb : Val.bgt (oracle i).distance_km (d / 2) <;>
            simp [hs, hr, herr, hfr, hb, diamPass, hdp]
  all_goals simp [reachesOracle, hla, hlo] at h

/-- C5: when `diameter_km` is configured, a stage-4 candidate is rejected by
the diameter filter exactly when its route `distance_km` exceeds
`diameter_km / 2` in the strict Python `>` sense (for a finite distance `q`
that is `d / 2 < q`; an infinite distance always exceeds): in the rejected
case the diameter counter increments and the candidate list is unchanged,
otherwise (including equality at the boundary, e.g. 5.0 km against
diameter 10) the candidate is kept; when no diameter filter is configured
no candidate is rejected at this stage. -/
theorem c5_diameter_boundary (cfg : Config) (hav : Coord → Coord → ℚ)
    (oracle : Nat → RouteResult) (alert : Coord) (st : SelState) (idx : Nat) (user : User)
    (h4 : reachesOracle cfg hav alert user = true) :
    (∀ d : ℚ, cfg.selection_diameter_km = some d →
      (∀ q : ℚ, (oracle idx).distance_km = Val.fin q →
        (Val.bgt (oracle idx).distance_km (d / 2) = true ↔ d / 2 < q)) ∧
      (if Val.bgt (oracle idx).distance_km (d / 2) then
        (processUser cfg hav oracle alert st idx user).diameter_filtered = st.diameter_filtered + 1 ∧
        (processUser cfg hav oracle alert st idx user).candidates = st.candidates
      else
        (processUser cfg hav oracle alert st idx user).diameter_filtered = st.diameter_filtered ∧
        (processUser cfg hav oracle alert st idx user).candidates =
          st.candidates ++ [mkCand oracle (idx, user)])) ∧
    (cfg.selection_diameter_km = none →
      (processUser cfg hav oracle alert st idx user).diameter_filtered = st.diameter_filtered ∧
      (processUser cfg hav oracle alert st idx user).candidates =
        st.candidates ++ [mkCand oracle (idx, user)]) ∧
    Val.bgt (Val.fin 5) (10 / 2) = false := by
  have hc := (processUser_reach cfg hav oracle alert st idx user h4).1
  have hd := processUser_reach_diam cfg hav oracle alert st idx user h4
  refine ⟨?_, ?_, by norm_num [Val.bgt]⟩
  · intro d hdm
    refine ⟨?_, ?_⟩
    · intro q hq
      simp [hq, Val.bgt]
    · have hdp : diamPass cfg (oracle idx).distance_km =
          !(Val.bgt (oracle idx).distance_km (d / 2)) := by
        simp [diamPass, hdm]
      cases hb : Val.bgt (oracle idx).distance_km (d / 2) <;>
        simp_all
  · intro hdm
    have hdp : diamPass cfg (oracle idx).distance_km = true := by
      simp [diamPass, hdm]
    simp_all

/-- Witness for C5: a 10 km diameter, a succeeding oracle at 3 km. -/
theorem c5_diameter_boundary_witness :
    reachesOracle cfgD hav0 (0, 0) uA = true ∧
    ((Val.bgt (okOracle 0).distance_km (10 / 2) = true ↔ (10 : ℚ) / 2 < 3) ∧
      (processUser cfgD hav0 okOracle (0, 0) SelState.init 0 uA).diameter_filtered =
        SelState.init.diameter_filtered ∧
      (processUser cfgD hav0 okOracle (0, 0) SelState.init 0 uA).candidates =
        SelState.init.candidates ++ [mkCand okOracle (0, uA)]) ∧
    Val.bgt (Val.fin 5) (10 / 2) = false := by
  have h4 : reachesOracle cfgD hav0 (0, 0) uA = true := by decide
  have h := c5_diameter_boundary cfgD hav0 okOracle (0, 0) SelState.init 0 uA h4
  have h1 := (h.1 10 rfl)
  have hb : Val.bgt (okOracle 0).distance_km (10 / 2) = false := by
    norm_num [okOracle, Val.bgt]
  refine ⟨h4, ⟨?_, ?_⟩, h.2.2⟩
  · exact h1.1 3 rfl
  · have := h1.2
    rw [hb] at this
    simpa using this

/-! ### The availability/truncation loop -/

/-- Does the availability stage let a candidate through (it is not the case
that filtering is on and the candidate is unavailable)? -/
def selPass (fa : Bool) (c : Cand) : Bool := !(fa && !c.user.availD)

lemma selLoop_length_le (fa : Bool) (n : Nat) :
    ∀ (l : List Cand) (k : Nat), k < n → (selLoop fa n k l).length ≤ n - k
  | [], _, _ => by simp [selLoop]
  | c :: rest, k, hk => by
    rw [selLoop]
    split
    · exact selLoop_length_le fa n rest k hk
    split
    · simpa using by omega
    · have hlt : k + 1 < n := by omega
      have := selLoop_length_le fa n rest (k + 1) hlt
      simp only [List.length_cons]
      omega

lemma selLoop_length_eq (fa : Bool) (n : Nat) :
    ∀ (l : List Cand) (k : Nat), k < n → n - k ≤ l.countP (selPass fa) →
      (selLoop fa n k l).length = n - k
  | [], k, hk, hc => by simp at hc; omega
  | c :: rest, k, hk, hc => by
    rw [selLoop]
    rw [List.countP_cons] at hc
    split
    case isTrue hskip =>
      have hpass : selPass fa c = false := by
        simp only [selPass, hskip, Bool.not_true]
      rw [hpass] at hc
      simp only [Bool.false_eq_true, if_false] at hc
      exact selLoop_length_eq fa n rest k hk (by omega)
    case isFalse hskip =>
      have hx : (fa && !c.user.availD) = false := by simpa using hskip
      have hpass : selPass fa c = true := by simp [selPass, hx]
      rw [hpass] at hc
      simp only [if_true] at hc
      split
      · simp; omega
      · have hlt : k + 1 < n := by omega
        have := selLoop_length_eq fa n rest (k + 1) hlt (by omega)
        simp only [List.length_cons]
        omega

lemma selLoop_no_filter (n : Nat) :
    ∀ (l : List Cand) (k : Nat), k < n →
      selLoop false n k l = (l.map Cand.user).take (n - k)
  | [], _, _ => by simp [selLoop]
  | c :: rest, k, hk => by
    rw [selLoop]
    simp only [Bool.false_and, Bool.false_eq_true, if_false]
    split
    · have h1 : n - k = 1 := by omega
      simp [h1]
    · have hlt : k + 1 < n := by omega
      rw [selLoop_no_filter n rest (k + 1) hlt]
      have h2 : n - k = (n - (k + 1)) + 1 := by omega
      simp [h2]

lemma selLoop_zero (fa : Bool) :
    ∀ (l : List Cand) (k : Nat), (∃ c ∈ l, selPass fa c = true) →
      (selLoop fa 0 k l).length = 1
  | [], _, h => by simp at h
  | c :: rest, k, h => by
    rw [selLoop]
    split
    case isTrue hskip =>
      rcases h with ⟨c', hc', hp⟩
      rcases List.mem_cons.1 hc' with rfl | hmem
      · simp [selPass, hskip] at hp
      · exact selLoop_zero fa rest k ⟨c', hmem, hp⟩
    case isFalse hskip =>
      simp

lemma selLoop_sublist (fa : Bool) (n : Nat) :
    ∀ (l : List Cand) (k : Nat),
      ∃ l', List.Sublist l' l ∧ selLoop fa n k l = l'.map Cand.user
  | [], _ => ⟨[], List.Sublist.refl _, rfl⟩
  | c :: rest, k => by
    rw [selLoop]
    split
    · obtain ⟨l', hsub, heq⟩ := selLoop_sublist fa n rest k
      exact ⟨l', hsub.cons c, heq⟩
    split
    · exact ⟨[c], (List.nil_sublist rest).cons₂ c, rfl⟩
    · obtain ⟨l', hsub, heq⟩ := selLoop_sublist fa n rest (k + 1)
      exact ⟨c :: l', hsub.cons₂ c, by simp [heq]⟩

/-! ### C10: `num_users = 0` still selects one candidate -/

/-- C10: with `num_users = 0` and at least one eligible candidate passing
the availability filter, the selected list has exactly one element — the
`len(selected) >= num_users` truncation check runs only after appending, so
`len(selected) <= num_users` can only be guaranteed for positive
`num_users`. -/
theorem c10_zero_num_users (cfg : Config) (hav : Coord → Coord → ℚ)
    (oracle : Nat → RouteResult) (alert : Coord) (users : List User)
    (h : ∃ c ∈ sortedCands cfg hav oracle alert users,
      selPass cfg.filter_only_available c = true) :
    (select_nearest_available_users cfg hav oracle alert 0 users).selected.length = 1 := by
  rw [select_eq]
  exact selLoop_zero cfg.filter_only_available (sortedCands cfg hav oracle alert users) 0 h

/-- Witness for C10: one always-selectable user, `num_users = 0`. -/
theorem c10_zero_num_users_witness :
    (∃ c ∈ sortedCands cfgN hav0 okOracle (0, 0) [uA],
      selPass cfgN.filter_only_available c = true) ∧
    (select_nearest_available_users cfgN hav0 okOracle (0, 0) 0 [uA]).selected.length = 1 := by
  have hcands : (runState cfgN hav0 okOracle (0, 0) [uA]).candidates =
      [mkCand okOracle (0, uA)] := by
    rw [runState, loop_candidates]
    decide
  have hsorted : sortedCands cfgN hav0 okOracle (0, 0) [uA] = [mkCand okOracle (0, uA)] := by
    rw [sortedCands, hcands]
    simp
  have h : ∃ c ∈ sortedCands cfgN hav0 okOracle (0, 0) [uA],
      selPass cfgN.filter_only_available c = true := by
    refine ⟨mkCand okOracle (0, uA), ?_, by decide⟩
    rw [hsorted]
    exact List.mem_singleton_self _
  exact ⟨h, c10_zero_num_users cfgN hav0 okOracle (0, 0) [uA] h⟩

/-! ### C6: truncation, availability filtering, metrics independence -/

/-- Are both coordinates present? -/
def coordsValid (u : User) : Bool := u.latitude.isSome && u.longitude.isSome

/-- Is the user rejected by the status filter? -/
def statusRejected (cfg : Config) (u : User) : Bool :=
  coordsValid u && !(u.status == cfg.user_profile_selection)

/-- Is the user rejected by the euclidian pre-filter? -/
def havRejected (cfg : Config) (hav : Coord → Coord → ℚ) (alert : Coord) (u : User) : Bool :=
  match u.latitude, u.longitude with
  | some lat, some lon =>
    (u.status == cfg.user_profile_selection) && havReject cfg hav alert (lat, lon)
  | _, _ => false

/-- Does a route result trip the OSRM-error counter? -/
def oracleErr (r : RouteResult) : Bool :=
  (r.distance_km == Val.inf) || (r.duration_s == Val.inf)

lemma processUser_counters (cfg : Config) (hav : Coord → Coord → ℚ)
    (oracle : Nat → RouteResult) (alert : Coord) (st : SelState) (i : Nat) (u : User) :
    (processUser cfg hav oracle alert st i u).invalid_coordinates =
      st.invalid_coordinates + (if coordsValid u then 0 else 1) ∧
    (processUser cfg hav oracle alert st i u).status_filtered =
      st.status_filtered + (if statusRejected cfg u then 1 else 0) ∧
    (processUser cfg hav oracle alert st i u).haversine_filtered =
      st.haversine_filtered + (if havRejected cfg hav alert u then 1 else 0) ∧
    (processUser cfg hav oracle alert st i u).osrm_errors =
      st.osrm_errors + (if reachesOracle cfg hav alert u && oracleErr (oracle i) then 1 else 0) ∧
    (processUser cfg hav oracle alert st i u).diameter_filtered =
      st.diameter_filtered +
        (if reachesOracle cfg hav alert u && !diamPass cfg (oracle i).distance_km then 1 else 0) ∧
    (processUser cfg hav oracle alert st i u).candidates.length =
      st.candidates.length +
        (if reachesOracle cfg hav alert u && diamPass cfg (oracle i).distance_km then 1 else 0) := by
  unfold processUser
  cases hla : u.latitude <;> cases hlo : u.longitude
  case some.some lat lon =>
    by_cases hs : u.status = cfg.user_profile_selection
    · cases hhr : havReject cfg hav alert (lat, lon) with
      | true =>
        simp [coordsValid, statusRejected, havRejected, reachesOracle, hla, hlo, hs, hhr]
      | false =>
        rcases hdp : cfg.selection_diameter_km with _ | d <;>
          cases hE : oracleErr (oracle i) <;>
            cases hfr : (oracle i).full_response <;>
              (try cases hb : Val.bgt (oracle i).distance_km (d / 2)) <;>
                simp_all [coordsValid, statusRejected, havRejected, reachesOracle,
                  diamPass, oracleErr]
    · simp [coordsValid, statusRejected, havRejected, reachesOracle, hla, hlo, hs]
  all_goals
    simp [coordsValid, statusRejected, havRejected, reachesOracle, hla, hlo]

/-- Two user records that agree on everything the filtering pipeline reads
(id, coordinates, status) and may differ in availability. -/
def sameShape (u v : User) : Prop :=
  u.id = v.id ∧ u.latitude = v.latitude ∧ u.longitude = v.longitude ∧ u.status = v.status

lemma shape_toggles (cfg : Config) (hav : Coord → Coord → ℚ) (alert : Coord)
    {u v : User} (h : sameShape u v) :
    coordsValid u = coordsValid v ∧ statusRejected cfg u = statusRejected cfg v ∧
    havRejected cfg hav alert u = havRejected cfg hav alert v ∧
    reachesOracle cfg hav alert u = reachesOracle cfg hav alert v := by
  obtain ⟨h1, h2, h3, h4⟩ := h
  refine ⟨?_, ?_, ?_, ?_⟩ <;>
    simp only [coordsValid, statusRejected, havRejected, reachesOracle, h2, h3, h4]

lemma loop_shape_rel (cfg : Config) (hav : Coord → Coord → ℚ)
    (oracle : Nat → RouteResult) (alert : Coord) :
    ∀ {us vs : List User}, List.Forall₂ sameShape us vs → ∀ (i : Nat) {st st' : SelState},
      st.invalid_coordinates = st'.invalid_coordinates →
      st.status_filtered = st'.status_filtered →
      st.haversine_filtered = st'.haversine_filtered →
      st.osrm_errors = st'.osrm_errors →
      st.diameter_filtered = st'.diameter_filtered →
      st.candidates.length = st'.candidates.length →
      (loop cfg hav oracle alert i us st).invalid_coordinates =
        (loop cfg hav oracle alert i vs st').invalid_coordinates ∧
      (loop cfg hav oracle alert i us st).status_filtered =
        (loop cfg hav oracle alert i vs st').status_filtered ∧
      (loop cfg hav oracle alert i us st).haversine_filtered =
        (loop cfg hav oracle alert i vs st').haversine_filtered ∧
      (loop cfg hav oracle alert i us st).osrm_errors =
        (loop cfg hav oracle alert i vs st').osrm_errors ∧
      (loop cfg hav oracle alert i us st).diameter_filtered =
        (loop cfg hav oracle alert i vs st').diameter_filtered ∧
      (loop cfg hav oracle alert i us st).candidates.length =
        (loop cfg hav oracle alert i vs st').candidates.length
  | _, _, List.Forall₂.nil, i, st, st', h1, h2, h3, h4, h5, h6 => by
    exact ⟨h1, h2, h3, h4, h5, h6⟩
  | _, _, List.Forall₂.cons hw hrest, i, st, st', h1, h2, h3, h4, h5, h6 => by
    rw [loop, loop]
    obtain ⟨t1, t2, t3, t4⟩ := shape_toggles cfg hav alert hw
    obtain ⟨a1, a2, a3, a4, a5, a6⟩ := processUser_counters cfg hav oracle alert st i _
    obtain ⟨b1, b2, b3, b4, b5, b6⟩ := processUser_counters cfg hav oracle alert st' i _
    exact loop_shape_rel cfg hav oracle alert hrest (i + 1)
      (by rw [a1, b1, h1, t1]) (by rw [a2, b2, h2, t2]) (by rw [a3, b3, h3, t3])
      (by rw [a4, b4, h4, t4]) (by rw [a5, b5, h5, t4]) (by rw [a6, b6, h6, t4])

/-- C6: for positive `num_wanted` the selected list never exceeds
`num_wanted` and reaches it whenever at least `num_wanted` eligible
candidates pass the availability filter; with `require_available` false no
candidate is skipped (the selection is exactly the `num_wanted`-prefix of
the sorted eligible list); and availability flags influence no metric
other than the final `selected` count — skipped candidates stay inside the
`candidates` (eligible) count and are charged to no rejection counter. -/
theorem c6_truncation_and_availability (cfg : Config) (hav : Coord → Coord → ℚ)
    (oracle : Nat → RouteResult) (alert : Coord) (n : Nat) (users : List User)
    (hn : 0 < n) :
    (select_nearest_available_users cfg hav oracle alert n users).selected.length ≤ n ∧
    (n ≤ (runState cfg hav oracle alert users).candidates.countP
        (selPass cfg.filter_only_available) →
      (select_nearest_available_users cfg hav oracle alert n users).selected.length = n) ∧
    (cfg.filter_only_available = false →
      (select_nearest_available_users cfg hav oracle alert n users).selected =
        ((sortedCands cfg hav oracle alert users).map Cand.user).take n) ∧
    (∀ users' : List User, List.Forall₂ sameShape users users' →
      (select_nearest_available_users cfg hav oracle alert n users).filtering_metrics.total_users =
        (select_nearest_available_users cfg hav oracle alert n users').filtering_metrics.total_users ∧
      (select_nearest_available_users cfg hav oracle alert n users).filtering_metrics.invalid_coordinates =
        (select_nearest_available_users cfg hav oracle alert n users').filtering_metrics.invalid_coordinates ∧
      (select_nearest_available_users cfg hav oracle alert n users).filtering_metrics.status_filtered =
        (select_nearest_available_users cfg hav oracle alert n users').filtering_metrics.status_filtered ∧
      (select_nearest_available_users cfg hav oracle alert n users).filtering_metrics.haversine_filtered =
        (select_nearest_available_users cfg hav oracle alert n users').filtering_metrics.haversine_filtered ∧
      (select_nearest_available_users cfg hav oracle alert n users).filtering_metrics.osrm_errors =
        (select_nearest_available_users cfg hav oracle alert n users').filtering_metrics.osrm_errors ∧
      (select_nearest_available_users cfg hav oracle alert n users).filtering_metrics.diameter_filtered =
        (select_nearest_available_users cfg hav oracle alert n users').filtering_metrics.diameter_filtered ∧
      (select_nearest_available_users cfg hav oracle alert n users).filtering_metrics.candidates =
        (select_nearest_available_users cfg hav oracle alert n users').filtering_metrics.candidates) := by
  refine ⟨?_, ?_, ?_, ?_⟩
  · rw [select_eq]
    have := selLoop_length_le cfg.filter_only_available n
      (sortedCands cfg hav oracle alert users) 0 hn
    simpa using this
  · intro hcount
    rw [select_eq]
    have hperm : (sortedCands cfg hav oracle alert users).countP
        (selPass cfg.filter_only_available) =
        (runState cfg hav oracle alert users).candidates.countP
          (selPass cfg.filter_only_available) :=
      (List.mergeSort_perm (runState cfg hav oracle alert users).candidates
        (candLE cfg)).countP_eq _
    have := selLoop_length_eq cfg.filter_only_available n
      (sortedCands cfg hav oracle alert users) 0 hn (by rw [hperm]; omega)
    simpa using this
  · intro hfa
    rw [select_eq]
    have := selLoop_no_filter n (sortedCands cfg hav oracle alert users) 0 hn
    simp only [selectedUsers, hfa, Nat.sub_zero] at this ⊢
    simpa using this
  · intro users' hshape
    rw [select_eq, select_eq]
    obtain ⟨r1, r2, r3, r4, r5, r6⟩ :=
      @loop_shape_rel cfg hav oracle alert users users' hshape 0
        SelState.init SelState.init rfl rfl rfl rfl rfl rfl
    exact ⟨by simpa using hshape.length_eq, r1, r2, r3, r4, r5, r6⟩

/-- Witness for C6 at a concrete input: one available user, `n = 1`. -/
theorem c6_truncation_and_availability_witness :
    (select_nearest_available_users cfgN hav0 okOracle (0, 0) 1 [uA]).selected.length ≤ 1 ∧
    (select_nearest_available_users cfgN hav0 okOracle (0, 0) 1 [uA]).selected.length = 1 ∧
    (select_nearest_available_users cfgN hav0 okOracle (0, 0) 1 [uA]).filtering_metrics.candidates =
      (select_nearest_available_users cfgN hav0 okOracle (0, 0) 1 [uA]).filtering_metrics.candidates := by
  have h := c6_truncation_and_availability cfgN hav0 okOracle (0, 0) 1 [uA] (by norm_num)
  refine ⟨h.1, ?_, ?_⟩
  · refine h.2.1 ?_
    have hcands : (runState cfgN hav0 okOracle (0, 0) [uA]).candidates =
        [mkCand okOracle (0, uA)] := by
      rw [runState, loop_candidates]
      decide
    rw [hcands]
    decide
  · exact (h.2.2.2 [uA] (List.Forall₂.cons ⟨rfl, rfl, rfl, rfl⟩ List.Forall₂.nil)).2.2.2.2.2.2

/-! ### C2: the sort -/

lemma Val.ble_trans : ∀ a b c : Val, Val.ble a b = true → Val.ble b c = true → Val.ble a c = true := by
  intro a b c
  cases a <;> cases b <;> cases c <;> simp [Val.ble] <;> exact fun h1 h2 => le_trans h1 h2

lemma Val.ble_total : ∀ a b : Val, Val.ble a b || Val.ble b a := by
  intro a b
  cases a <;> cases b <;> simp [Val.ble] <;> exact le_total _ _

lemma candLE_trans (cfg : Config) : ∀ a b c : Cand,
    candLE cfg a b = true → candLE cfg b c = true → candLE cfg a c = true :=
  fun _ _ _ h1 h2 => Val.ble_trans _ _ _ h1 h2

lemma candLE_total (cfg : Config) : ∀ a b : Cand, candLE cfg a b || candLE cfg b a :=
  fun _ _ => Val.ble_total _ _

/-- C2 (amended): the eligible candidates are sorted ascending by
`duration_s` when `sort_key == travel_time` and by `distance_km` for every
other `sort_key` value (the code's default branch — not, as claimed, by
`duration_s` for every value other than `distance`): the output is a
permutation of the eligible list, is non-decreasing under the configured
key, equals the stable sort that breaks ties by original input order, and
the selected list is a subsequence of it, hence its key values are
non-decreasing as well. -/
theorem c2_sort_stable_monotone (cfg : Config) (hav : Coord → Coord → ℚ)
    (oracle : Nat → RouteResult) (alert : Coord) (n : Nat) (users : List User) :
    sortKey cfg = (fun c => if cfg.sort_by = "travel_time" then c.duration_s else c.distance_km) ∧
    List.Perm (sortedCands cfg hav oracle alert users)
      (runState cfg hav oracle alert users).candidates ∧
    (sortedCands cfg hav oracle alert users).Pairwise (fun a b => candLE cfg a b = true) ∧
    ((runState cfg hav oracle alert users).candidates.enum.mergeSort
      (List.enumLE (candLE cfg))).map Prod.snd = sortedCands cfg hav oracle alert users ∧
    (∃ sel', List.Sublist sel' (sortedCands cfg hav oracle alert users) ∧
      (select_nearest_available_users cfg hav oracle alert n users).selected =
        sel'.map Cand.user ∧
      sel'.Pairwise (fun a b => candLE cfg a b = true)) := by
  refine ⟨rfl, List.mergeSort_perm _ _, ?_, List.mergeSort_enum, ?_⟩
  · exact List.sorted_mergeSort (candLE_trans cfg) (candLE_total cfg) _
  · obtain ⟨sel', hsub, heq⟩ := selLoop_sublist cfg.filter_only_available n
      (sortedCands cfg hav oracle alert users) 0
    refine ⟨sel', hsub, by rw [select_eq]; exact heq, ?_⟩
    exact (List.sorted_mergeSort (candLE_trans cfg) (candLE_total cfg) _).sublist hsub

/-- Fixtures for the C2 counterexample: a third `sort_by` value. -/
def cfgX : Config := ⟨none, some "driving", true, "x", none⟩

/-- First user of the C2 counterexample (index 0). -/
def uX : User := ⟨some 10, some 1, some 2, some "driving", some true⟩

/-- Second user of the C2 counterexample (index 1). -/
def uY : User := ⟨some 20, some 3, some 4, some "driving", some true⟩

/-- Routes for the C2 counterexample: index 0 gets distance 10 km /
duration 1 s, index 1 gets distance 1 km / duration 10 s. -/
def oracleX : Nat → RouteResult :=
  fun i => if i = 0 then ⟨Val.fin 10, Val.fin 1, true⟩ else ⟨Val.fin 1, Val.fin 10, true⟩

/-- C2 counterexample: with `sort_by = "x"` (neither `distance` nor
`travel_time`) the code still sorts by distance: the selected list is
`[uY, uX]` (distances 1 then 10) whose durations run 10 then 1 — not the
duration-ascending order `[uX, uY]` the claim requires for every
`sort_key` other than `distance`. -/
theorem c2_counterexample :
    cfgX.sort_by ≠ "distance" ∧ cfgX.sort_by ≠ "travel_time" ∧
    (oracleX 0).duration_s = Val.fin 1 ∧ (oracleX 1).duration_s = Val.fin 10 ∧
    (select_nearest_available_users cfgX hav0 oracleX (0, 0) 2 [uX, uY]).selected = [uY, uX] ∧
    (select_nearest_available_users cfgX hav0 oracleX (0, 0) 2 [uX, uY]).selected ≠ [uX, uY] ∧
    Val.ble (Val.fin 10) (Val.fin 1) = false := by
  have hcands : (runState cfgX hav0 oracleX (0, 0) [uX, uY]).candidates =
      [mkCand oracleX (0, uX), mkCand oracleX (1, uY)] := by
    rw [runState, loop_candidates]
    decide
  have hsort : sortedCands cfgX hav0 oracleX (0, 0) [uX, uY] =
      [mkCand oracleX (1, uY), mkCand oracleX (0, uX)] := by
    rw [sortedCands, hcands]
    simp [List.mergeSort, List.merge, candLE, sortKey, cfgX, Val.ble, mkCand, oracleX]
  have hsel : (select_nearest_available_users cfgX hav0 oracleX (0, 0) 2 [uX, uY]).selected =
      [uY, uX] := by
    rw [select_eq]
    show selLoop cfgX.filter_only_available 2 0 (sortedCands cfgX hav0 oracleX (0, 0) [uX, uY]) = _
    rw [hsort]
    decide
  refine ⟨by decide, by decide, rfl, rfl, hsel, ?_, by decide⟩
  rw [hsel]
  decide

/-! ### C3 and C4: the bookkeeping maps -/

/-- The key of every pool entry, in input order. -/
def allKeys (users : List User) : List Nat := users.enum.map pairKey

lemma foldl_dictInsert_fresh {α : Type} {β : Type} (key : β → Nat) (val : β → α) :
    ∀ (ps : List β) (m : List (Nat × α)),
      (ps.map key).Nodup → (∀ k ∈ ps.map key, k ∉ m.map Prod.fst) →
      ps.foldl (fun acc p => dictInsert acc (key p) (val p)) m =
        m ++ ps.map (fun p => (key p, val p))
  | [], m, _, _ => by simp
  | q :: rest, m, hnd, hfr => by
    rw [List.foldl_cons]
    have hq : key q ∉ m.map Prod.fst := hfr (key q) (by simp)
    have hins : dictInsert m (key q) (val q) = m ++ [(key q, val q)] := by
      rw [dictInsert, if_neg]
      simpa using hq
    rw [hins, List.map_cons] at *
    have hnd' : (rest.map key).Nodup := (List.nodup_cons.mp hnd).2
    have hq1 : key q ∉ rest.map key := (List.nodup_cons.mp hnd).1
    rw [foldl_dictInsert_fresh key val rest (m ++ [(key q, val q)]) hnd' ?fresh]
    · simp
    case fresh =>
      intro k hk
      simp only [List.map_append, List.mem_append, List.map_cons, List.map_nil,
        List.mem_singleton, not_or]
      constructor
      · exact hfr k (by simp [hk])
      · intro hkq
        rw [hkq] at hk
        exact hq1 hk

lemma mem_foldl_keysInsert {β : Type} (key : β → Nat) :
    ∀ (l : List β) (ks : List Nat) (k : Nat),
      (k ∈ l.foldl (fun acc p => keysInsert acc (key p)) ks ↔ k ∈ ks ∨ k ∈ l.map key)
  | [], ks, k => by simp
  | b :: rest, ks, k => by
    rw [List.foldl_cons, mem_foldl_keysInsert key rest (keysInsert ks (key b)) k]
    have : k ∈ keysInsert ks (key b) ↔ k ∈ ks ∨ k = key b := by
      rw [keysInsert]
      split
      case isTrue h =>
        rw [List.contains_iff_exists_mem_beq] at h
        obtain ⟨a, ha, hab⟩ := h
        rw [beq_iff_eq] at hab
        subst hab
        constructor
        · exact fun hk => Or.inl hk
        · rintro (hk | rfl)
          · exact hk
          · exact ha
      case isFalse h => simp
    rw [this]
    simp only [List.map_cons, List.mem_cons]
    tauto

lemma mem_stage4_iff (cfg : Config) (hav : Coord → Coord → ℚ) (alert : Coord)
    {users : List User} {idx : Nat} {user : User} :
    (idx, user) ∈ stage4Pairs cfg hav alert 0 users ↔
      users[idx]? = some user ∧ reachesOracle cfg hav alert user = true := by
  rw [stage4Pairs]
  have henum : users.enumFrom 0 = users.enum := rfl
  rw [henum, List.mem_filter]
  rw [List.mk_mem_enum_iff_getElem?]

lemma stage4_keys_nodup (cfg : Config) (hav : Coord → Coord → ℚ) (alert : Coord)
    {users : List User} (hkeys : (allKeys users).Nodup) :
    ((stage4Pairs cfg hav alert 0 users).map pairKey).Nodup := by
  have hsub : List.Sublist ((stage4Pairs cfg hav alert 0 users).map pairKey) (allKeys users) := by
    rw [stage4Pairs, allKeys]
    exact (List.filter_sublist _).map pairKey
  exact hkeys.sublist hsub

lemma runState_results_map (cfg : Config) (hav : Coord → Coord → ℚ)
    (oracle : Nat → RouteResult) (alert : Coord) (users : List User)
    (hkeys : (allKeys users).Nodup) :
    (runState cfg hav oracle alert users).osrm_results_map =
      (stage4Pairs cfg hav alert 0 users).map
        (fun p => (pairKey p, ((oracle p.1).distance_km, (oracle p.1).duration_s))) := by
  rw [runState, loop_results_map]
  have h := foldl_dictInsert_fresh pairKey
    (fun p => ((oracle p.1).distance_km, (oracle p.1).duration_s))
    (stage4Pairs cfg hav alert 0 users) []
    (stage4_keys_nodup cfg hav alert hkeys) (by simp)
  simpa using h

lemma runState_time_keys_mem (cfg : Config) (hav : Coord → Coord → ℚ)
    (oracle : Nat → RouteResult) (alert : Coord) (users : List User) (k : Nat) :
    k ∈ (runState cfg hav oracle alert users).time_keys ↔
      k ∈ (stage4Pairs cfg hav alert 0 users).map pairKey := by
  rw [runState, loop_time_keys]
  have h := mem_foldl_keysInsert pairKey (stage4Pairs cfg hav alert 0 users)
    SelState.init.time_keys k
  simpa [SelState.init] using h

lemma runState_response_values (cfg : Config) (hav : Coord → Coord → ℚ)
    (oracle : Nat → RouteResult) (alert : Coord) (users : List User) :
    (runState cfg hav oracle alert users).osrm_response_values =
      ((stage4Pairs cfg hav alert 0 users).filter
        (fun p => (oracle p.1).full_response)).map pairKey := by
  rw [runState, loop_response_values]
  rfl

lemma enum_key_inj {users : List User} (hkeys : (allKeys users).Nodup)
    {p q : Nat × User} (hp : p ∈ users.enum) (hq : q ∈ users.enum)
    (h : pairKey p = pairKey q) : p = q :=
  @List.inj_on_of_nodup_map (Nat × User) Nat pairKey users.enum hkeys p hp q hq h

/-- C3: a stage-4 candidate whose oracle call fails (returns the sentinel)
gets the entry `(inf, inf)` in `route_results`; when a diameter filter is
configured no eligible candidate — hence no selected user — carries an
infinite distance (infinity always exceeds `diameter_km / 2`); and with no
diameter filter configured an unreachable candidate remains eligible and
can be selected, witnessed by a concrete run where the oracle fails and
the failed candidate is nevertheless the selected one. -/
theorem c3_oracle_failure_sentinel (cfg : Config) (hav : Coord → Coord → ℚ)
    (oracle : Nat → RouteResult) (alert : Coord) (n : Nat)
    (users : List User) (idx : Nat) (user : User)
    (hmem : users[idx]? = some user)
    (h4 : reachesOracle cfg hav alert user = true)
    (hfail : oracle idx = RouteResult.sentinel)
    (hkeys : (allKeys users).Nodup) :
    (userKey idx user, (Val.inf, Val.inf)) ∈
      (select_nearest_available_users cfg hav oracle alert n users).osrm_results_map ∧
    (∀ d : ℚ, cfg.selection_diameter_km = some d →
      (∀ c ∈ (runState cfg hav oracle alert users).candidates, c.distance_km ≠ Val.inf) ∧
      (∀ u ∈ (select_nearest_available_users cfg hav oracle alert n users).selected,
        ∃ c ∈ (runState cfg hav oracle alert users).candidates,
          c.user = u ∧ c.distance_km ≠ Val.inf)) ∧
    ((select_nearest_available_users cfgN hav0 failOracle (0, 0) 2 [uA]).selected = [uA] ∧
      failOracle 0 = RouteResult.sentinel ∧ cfgN.selection_diameter_km = none) := by
  have hnoinf : ∀ d : ℚ, cfg.selection_diameter_km = some d →
      ∀ c ∈ (runState cfg hav oracle alert users).candidates, c.distance_km ≠ Val.inf := by
    intro d hd c hc
    rw [runState, loop_candidates] at hc
    simp only [SelState.init, List.nil_append, List.mem_map, List.mem_filter] at hc
    obtain ⟨p, ⟨_, hpass⟩, hmk⟩ := hc
    intro hinf
    rw [← hmk] at hinf
    simp only [mkCand] at hinf
    rw [diamPass, hd, hinf] at hpass
    simp [Val.bgt] at hpass
  refine ⟨?_, ?_, ?_⟩
  · rw [select_eq]
    show _ ∈ (runState cfg hav oracle alert users).osrm_results_map
    rw [runState_results_map cfg hav oracle alert users hkeys]
    have hp : (idx, user) ∈ stage4Pairs cfg hav alert 0 users :=
      (mem_stage4_iff cfg hav alert).mpr ⟨hmem, h4⟩
    have := List.mem_map_of_mem
      (fun p => (pairKey p, ((oracle p.1).distance_km, (oracle p.1).duration_s))) hp
    simpa [pairKey, hfail, RouteResult.sentinel] using this
  · intro d hd
    refine ⟨hnoinf d hd, ?_⟩
    intro u hu
    rw [select_eq] at hu
    obtain ⟨sel', hsub, heq⟩ := selLoop_sublist cfg.filter_only_available n
      (sortedCands cfg hav oracle alert users) 0
    rw [show selectedUsers cfg hav oracle alert n users =
      selLoop cfg.filter_only_available n 0 (sortedCands cfg hav oracle alert users) from rfl,
      heq] at hu
    simp only [List.mem_map] at hu
    obtain ⟨c, hc, hcu⟩ := hu
    have hcs : c ∈ sortedCands cfg hav oracle alert users := hsub.mem hc
    have hcc : c ∈ (runState cfg hav oracle alert users).candidates := by
      rw [sortedCands] at hcs
      exact List.mem_mergeSort.mp hcs
    exact ⟨c, hcc, hcu, hnoinf d hd c hcc⟩
  · refine ⟨?_, rfl, rfl⟩
    have hcands : (runState cfgN hav0 failOracle (0, 0) [uA]).candidates =
        [mkCand failOracle (0, uA)] := by
      rw [runState, loop_candidates]
      decide
    have hsorted : sortedCands cfgN hav0 failOracle (0, 0) [uA] =
        [mkCand failOracle (0, uA)] := by
      rw [sortedCands, hcands]
      simp
    rw [select_eq]
    show selLoop cfgN.filter_only_available 2 0 (sortedCands cfgN hav0 failOracle (0, 0) [uA]) = _
    rw [hsorted]
    decide

/-- Witness for C3: one user with a 10 km diameter filter and a failing
oracle: the sentinel is recorded and no eligible candidate is unreachable. -/
theorem c3_oracle_failure_sentinel_witness :
    (userKey 0 uA, (Val.inf, Val.inf)) ∈
      (select_nearest_available_users cfgD hav0 failOracle (0, 0) 2 [uA]).osrm_results_map ∧
    (∀ c ∈ (runState cfgD hav0 failOracle (0, 0) [uA]).candidates,
      c.distance_km ≠ Val.inf) := by
  have h := c3_oracle_failure_sentinel cfgD hav0 failOracle (0, 0) 2 [uA] 0 uA
    (by decide) (by decide) rfl (by decide)
  exact ⟨h.1, (h.2.1 10 rfl).1⟩

/-- C4 (amended): every candidate reaching the route-scoring stage — and
only those — gets an entry in the `route_results` map and the per-candidate
time map; it gets a `raw_oracle_responses` entry exactly when its raw
response is non-empty (truthy), so an oracle-failed candidate, whose raw
response is the empty sentinel dict, gets its sentinel entry in
`route_results` but NO `raw_oracle_responses` entry (contrary to the claim
as stated). -/
theorem c4_stage4_bookkeeping (cfg : Config) (hav : Coord → Coord → ℚ)
    (oracle : Nat → RouteResult) (alert : Coord) (n : Nat) (users : List User)
    (hkeys : (allKeys users).Nodup) :
    (∀ idx user, users[idx]? = some user → reachesOracle cfg hav alert user = true →
      ((userKey idx user, ((oracle idx).distance_km, (oracle idx).duration_s)) ∈
        (select_nearest_available_users cfg hav oracle alert n users).osrm_results_map ∧
      userKey idx user ∈ (select_nearest_available_users cfg hav oracle alert n users).time_keys ∧
      ((oracle idx).full_response = true →
        userKey idx user ∈
          (select_nearest_available_users cfg hav oracle alert n users).osrm_response_values) ∧
      (oracle idx = RouteResult.sentinel →
        userKey idx user ∉
          (select_nearest_available_users cfg hav oracle alert n users).osrm_response_values))) ∧
    (∀ k v, (k, v) ∈ (select_nearest_available_users cfg hav oracle alert n users).osrm_results_map →
      ∃ idx user, users[idx]? = some user ∧ reachesOracle cfg hav alert user = true ∧
        k = userKey idx user) ∧
    (∀ k ∈ (select_nearest_available_users cfg hav oracle alert n users).time_keys,
      ∃ idx user, users[idx]? = some user ∧ reachesOracle cfg hav alert user = true ∧
        k = userKey idx user) ∧
    (∀ k ∈ (select_nearest_available_users cfg hav oracle alert n users).osrm_response_values,
      ∃ idx user, users[idx]? = some user ∧ reachesOracle cfg hav alert user = true ∧
        k = userKey idx user ∧ (oracle idx).full_response = true) := by
  simp only [select_eq]
  refine ⟨?_, ?_, ?_, ?_⟩
  · intro idx user hmem h4
    have hp : (idx, user) ∈ stage4Pairs cfg hav alert 0 users :=
      (mem_stage4_iff cfg hav alert).mpr ⟨hmem, h4⟩
    refine ⟨?_, ?_, ?_, ?_⟩
    · rw [runState_results_map cfg hav oracle alert users hkeys]
      have := List.mem_map_of_mem
        (fun p => (pairKey p, ((oracle p.1).distance_km, (oracle p.1).duration_s))) hp
      simpa [pairKey] using this
    · rw [runState_time_keys_mem]
      exact List.mem_map_of_mem pairKey hp
    · intro hfr
      rw [runState_response_values]
      exact List.mem_map_of_mem pairKey (List.mem_filter.mpr ⟨hp, hfr⟩)
    · intro hfail hin
      rw [runState_response_values] at hin
      simp only [List.mem_map, List.mem_filter] at hin
      obtain ⟨q, ⟨hq4, hqfr⟩, hqk⟩ := hin
      have hqe : q ∈ users.enum := by
        rw [stage4Pairs] at hq4
        exact List.mem_of_mem_filter hq4
      have hpe : (idx, user) ∈ users.enum :=
        List.mk_mem_enum_iff_getElem?.mpr hmem
      have : q = (idx, user) := enum_key_inj hkeys hqe hpe (by simpa [pairKey] using hqk)
      rw [this] at hqfr
      rw [hfail] at hqfr
      simp [RouteResult.sentinel] at hqfr
  · intro k v hkv
    rw [runState_results_map cfg hav oracle alert users hkeys] at hkv
    simp only [List.mem_map] at hkv
    obtain ⟨p, hp, hpk⟩ := hkv
    obtain ⟨hmem, h4⟩ := (@mem_stage4_iff cfg hav alert users p.1 p.2).mp (by simpa using hp)
    exact ⟨p.1, p.2, hmem, h4, (congrArg Prod.fst hpk).symm⟩
  · intro k hk
    rw [runState_time_keys_mem] at hk
    simp only [List.mem_map] at hk
    obtain ⟨p, hp, hpk⟩ := hk
    obtain ⟨hmem, h4⟩ := (@mem_stage4_iff cfg hav alert users p.1 p.2).mp (by simpa using hp)
    exact ⟨p.1, p.2, hmem, h4, hpk.symm⟩
  · intro k hk
    rw [runState_response_values] at hk
    simp only [List.mem_map, List.mem_filter] at hk
    obtain ⟨p, ⟨hp, hfr⟩, hpk⟩ := hk
    obtain ⟨hmem, h4⟩ := (@mem_stage4_iff cfg hav alert users p.1 p.2).mp (by simpa using hp)
    exact ⟨p.1, p.2, hmem, h4, hpk.symm, hfr⟩

/-- Witness for C4: a succeeding oracle records all three entries. -/
theorem c4_stage4_bookkeeping_witness :
    (userKey 0 uA, ((okOracle 0).distance_km, (okOracle 0).duration_s)) ∈
      (select_nearest_available_users cfgN hav0 okOracle (0, 0) 2 [uA]).osrm_results_map ∧
    userKey 0 uA ∈ (select_nearest_available_users cfgN hav0 okOracle (0, 0) 2 [uA]).time_keys ∧
    userKey 0 uA ∈
      (select_nearest_available_users cfgN hav0 okOracle (0, 0) 2 [uA]).osrm_response_values := by
  have h := c4_stage4_bookkeeping cfgN hav0 okOracle (0, 0) 2 [uA] (by decide)
  have h1 := h.1 0 uA (by decide) (by decide)
  exact ⟨h1.1, h1.2.1, h1.2.2.1 rfl⟩

/-- C4 counterexample: a candidate that reaches the route-scoring stage and
whose oracle call fails gets NO `raw_oracle_responses` entry — the list is
empty, where the claim demands an entry for every stage-4 candidate. -/
theorem c4_counterexample :
    reachesOracle cfgN hav0 (0, 0) uA = true ∧
    failOracle 0 = RouteResult.sentinel ∧
    (select_nearest_available_users cfgN hav0 failOracle (0, 0) 2 [uA]).osrm_response_values = [] := by
  refine ⟨by decide, rfl, ?_⟩
  rw [select_eq]
  show (runState cfgN hav0 failOracle (0, 0) [uA]).osrm_response_values = []
  rw [runState_response_values]
  decide

/-! ### C8: the unset-profile behavior -/

/-- A config whose travel profile is unset (`None`). -/
def cfgNoneProfile : Config := ⟨none, none, true, "distance", none⟩

/-- A user whose status field is absent. -/
def uNoStatus : User := ⟨some 5, some 1, some 2, none, some true⟩

/-- C8 (amended): the core performs no fail-fast configuration check: the
status filter is a plain equality test between the optional user status and
the optional configured profile, so an unset (`None`) profile silently
matches exactly those candidates whose status is also absent
(`None != None` is false in Python) and status-rejects every candidate with
a set status — it is neither an error nor a wildcard over all candidates. -/
theorem c8_unset_profile_exact_equality (cfg : Config) (hav : Coord → Coord → ℚ)
    (oracle : Nat → RouteResult) (alert : Coord) (st : SelState) (idx : Nat)
    (user : User) (lat lon : ℚ)
    (hlat : user.latitude = some lat) (hlon : user.longitude = some lon) :
    ((processUser cfg hav oracle alert st idx user).status_filtered =
      st.status_filtered + (if user.status = cfg.user_profile_selection then 0 else 1)) ∧
    (cfg.user_profile_selection = none →
      ((user.status = none →
        (processUser cfg hav oracle alert st idx user).status_filtered = st.status_filtered) ∧
       (∀ s : String, user.status = some s →
        processUser cfg hav oracle alert st idx user =
          { st with status_filtered := st.status_filtered + 1 }))) := by
  constructor
  · have h := (processUser_counters cfg hav oracle alert st idx user).2.1
    rw [h]
    by_cases hs : user.status = cfg.user_profile_selection <;>
      simp [statusRejected, coordsValid, hlat, hlon, hs]
  · intro hprof
    constructor
    · intro hstat
      have h := (processUser_counters cfg hav oracle alert st idx user).2.1
      rw [h]
      simp [statusRejected, coordsValid, hlat, hlon, hstat, hprof]
    · intro s hs
      unfold processUser
      simp only [hlat, hlon]
      rw [if_pos]
      rw [hs, hprof]
      simp

/-- Witness for C8: with an unset profile, an absent-status user is not
status-filtered while a `driving` user is. -/
theorem c8_unset_profile_exact_equality_witness :
    (processUser cfgNoneProfile hav0 okOracle (0, 0) SelState.init 0 uNoStatus).status_filtered =
      SelState.init.status_filtered ∧
    processUser cfgNoneProfile hav0 okOracle (0, 0) SelState.init 0 uA =
      { SelState.init with status_filtered := SelState.init.status_filtered + 1 } := by
  have h1 := c8_unset_profile_exact_equality cfgNoneProfile hav0 okOracle (0, 0)
    SelState.init 0 uNoStatus 1 2 rfl rfl
  have h2 := c8_unset_profile_exact_equality cfgNoneProfile hav0 okOracle (0, 0)
    SelState.init 0 uA 1 2 rfl rfl
  exact ⟨(h1.2 rfl).1 rfl, (h2.2 rfl).2 "driving" rfl⟩

/-- C8 counterexample: a configuration error (unset profile) reaches the
core and the selection does NOT fail fast: it proceeds normally, and the
unset profile matches the candidate whose status is also absent — that
candidate reaches the oracle, is never status-filtered, and ends up
selected. -/
theorem c8_counterexample :
    cfgNoneProfile.user_profile_selection = none ∧ uNoStatus.status = none ∧
    (select_nearest_available_users cfgNoneProfile hav0 okOracle (0, 0) 2 [uNoStatus]).selected =
      [uNoStatus] ∧
    (select_nearest_available_users cfgNoneProfile hav0 okOracle (0, 0) 2
      [uNoStatus]).filtering_metrics.status_filtered = 0 := by
  have hcands : (runState cfgNoneProfile hav0 okOracle (0, 0) [uNoStatus]).candidates =
      [mkCand okOracle (0, uNoStatus)] := by
    rw [runState, loop_candidates]
    decide
  have hsorted : sortedCands cfgNoneProfile hav0 okOracle (0, 0) [uNoStatus] =
      [mkCand okOracle (0, uNoStatus)] := by
    rw [sortedCands, hcands]
    simp
  refine ⟨rfl, rfl, ?_, ?_⟩
  · rw [select_eq]
    show selLoop cfgNoneProfile.filter_only_available 2 0
      (sortedCands cfgNoneProfile hav0 okOracle (0, 0) [uNoStatus]) = _
    rw [hsorted]
    decide
  · rw [select_eq]
    show (runState cfgNoneProfile hav0 okOracle (0, 0) [uNoStatus]).status_filtered = 0
    decide

end SelectUsers

/-!
### C9: the haversine formula over `ℝ`

`haversine_distance` (source lines 50-58) is embedded over the reals, with
`math.radians`, `math.atan2`, `math.sqrt` and the trigonometric functions
mapped to their Mathlib counterparts.  The development reduces the formula
to `R * arccos` of the dot product of the two unit vectors the coordinates
denote on the sphere, from which symmetry, non-negativity, the `π·R` upper
bound, vanishing on equal inputs and the triangle inequality follow.
-/

namespace Haversine

/-- `math.radians`. -/
noncomputable def radians (x : ℝ) : ℝ := x * Real.pi / 180

/-- `math.atan2(y, x)` (Python/C semantics, signed zeros ignored). -/
noncomputable def atan2 (y x : ℝ) : ℝ :=
  if 0 < x then Real.arctan (y / x)
  else if x < 0 then
    (if 0 ≤ y then Real.arctan (y / x) + Real.pi else Real.arctan (y / x) - Real.pi)
  else if 0 < y then Real.pi / 2
  else if y < 0 then -(Real.pi / 2)
  else 0

/-- `haversine_distance(loc1, loc2)` with `loc = (lat, lon)` in degrees. -/
noncomputable def haversine_distance (loc1 loc2 : ℝ × ℝ) : ℝ :=
  let R : ℝ := 6371.0
  let lat1 := radians loc1.1
  let lon1 := radians loc1.2
  let lat2 := radians loc2.1
  let lon2 := radians loc2.2
  let dlat := lat2 - lat1
  let dlon := lon2 - lon1
  let a := Real.sin (dlat / 2) ^ 2 + Real.cos lat1 * Real.cos lat2 * Real.sin (dlon / 2) ^ 2
  let c := 2 * atan2 (Real.sqrt a) (Real.sqrt (1 - a))
  R * c

/-- The `a` intermediate of the formula. -/
noncomputable def havA (p q : ℝ × ℝ) : ℝ :=
  Real.sin ((radians q.1 - radians p.1) / 2) ^ 2 +
    Real.cos (radians p.1) * Real.cos (radians q.1) *
      Real.sin ((radians q.2 - radians p.2) / 2) ^ 2

/-- The unit vector a latitude/longitude pair denotes on the sphere. -/
noncomputable def sphVec (p : ℝ × ℝ) : ℝ × ℝ × ℝ :=
  (Real.cos (radians p.1) * Real.cos (radians p.2),
   Real.cos (radians p.1) * Real.sin (radians p.2),
   Real.sin (radians p.1))

/-- Euclidean dot product on `ℝ × ℝ × ℝ`. -/
def dot3 (u v : ℝ × ℝ × ℝ) : ℝ := u.1 * v.1 + u.2.1 * v.2.1 + u.2.2 * v.2.2

lemma dot3_comm (u v : ℝ × ℝ × ℝ) : dot3 u v = dot3 v u := by
  simp only [dot3]; ring

lemma dot3_self_sphVec (p : ℝ × ℝ) : dot3 (sphVec p) (sphVec p) = 1 := by
  simp only [dot3, sphVec]
  nlinarith [Real.sin_sq_add_cos_sq (radians p.1), Real.sin_sq_add_cos_sq (radians p.2)]

lemma dot3_sq_le (u v : ℝ × ℝ × ℝ) : (dot3 u v) ^ 2 ≤ dot3 u u * dot3 v v := by
  simp only [dot3]
  nlinarith [sq_nonneg (u.1 * v.2.1 - u.2.1 * v.1), sq_nonneg (u.1 * v.2.2 - u.2.2 * v.1),
    sq_nonneg (u.2.1 * v.2.2 - u.2.2 * v.2.1)]

lemma dot3_unit_bounds {u v : ℝ × ℝ × ℝ} (hu : dot3 u u = 1) (hv : dot3 v v = 1) :
    -1 ≤ dot3 u v ∧ dot3 u v ≤ 1 := by
  have h := dot3_sq_le u v
  rw [hu, hv] at h
  constructor <;> nlinarith

lemma sin_half_sq (t : ℝ) : Real.sin (t / 2) ^ 2 = (1 - Real.cos t) / 2 := by
  have h := Real.cos_two_mul' (t / 2)
  have h2 : 2 * (t / 2) = t := by ring
  rw [h2] at h
  have h3 := Real.sin_sq_add_cos_sq (t / 2)
  nlinarith [h, h3]

lemma one_sub_two_havA (p q : ℝ × ℝ) : 1 - 2 * havA p q = dot3 (sphVec p) (sphVec q) := by
  rw [havA, sin_half_sq, sin_half_sq, Real.cos_sub, Real.cos_sub]
  simp only [dot3, sphVec]
  ring

lemma two_atan2_sqrt_eq_arccos {a : ℝ} (h0 : 0 ≤ a) (h1 : a ≤ 1) :
    2 * atan2 (Real.sqrt a) (Real.sqrt (1 - a)) = Real.arccos (1 - 2 * a) := by
  rcases eq_or_lt_of_le h1 with heq | hlt
  · subst heq
    have hz : (1 : ℝ) - 1 = 0 := by ring
    rw [hz, Real.sqrt_zero, Real.sqrt_one, atan2]
    have hpi : Real.pi / 2 > 0 := by positivity
    rw [if_neg (lt_irrefl 0), if_neg (lt_irrefl 0), if_pos one_pos]
    have harg : (1 : ℝ) - 2 * 1 = -1 := by ring
    rw [harg, Real.arccos_neg_one]
    ring
  · have hpos : 0 < 1 - a := by linarith
    have hcpos : 0 < Real.sqrt (1 - a) := Real.sqrt_pos.mpr hpos
    have hsa1 : Real.sqrt a < 1 := by
      have := Real.sqrt_lt_sqrt h0 hlt
      rwa [Real.sqrt_one] at this
    have hsa0 : 0 ≤ Real.sqrt a := Real.sqrt_nonneg a
    have hV : Real.sqrt a / Real.sqrt (1 - a) = Real.tan (Real.arcsin (Real.sqrt a)) := by
      rw [Real.tan_arcsin, Real.sq_sqrt h0]
    have hA1 : Real.arcsin (Real.sqrt a) < Real.pi / 2 := Real.arcsin_lt_pi_div_two.mpr hsa1
    have hA0 : 0 ≤ Real.arcsin (Real.sqrt a) := Real.arcsin_nonneg.mpr hsa0
    have hatan : atan2 (Real.sqrt a) (Real.sqrt (1 - a)) = Real.arcsin (Real.sqrt a) := by
      rw [atan2, if_pos hcpos, hV, Real.arctan_tan (by linarith [Real.pi_pos]) hA1]
    rw [hatan]
    have hcos : Real.cos (2 * Real.arcsin (Real.sqrt a)) = 1 - 2 * a := by
      rw [Real.cos_two_mul', Real.sin_arcsin (by linarith) (le_of_lt hsa1)]
      have h3 := Real.sin_sq_add_cos_sq (Real.arcsin (Real.sqrt a))
      have h4 : Real.sin (Real.arcsin (Real.sqrt a)) = Real.sqrt a :=
        Real.sin_arcsin (by linarith) (le_of_lt hsa1)
      have h5 : Real.sqrt a ^ 2 = a := Real.sq_sqrt h0
      nlinarith [h3, h4, h5]
    rw [← hcos, Real.arccos_cos (by linarith) (by linarith [Real.pi_pos])]

lemma haversine_eq_arccos (p q : ℝ × ℝ) :
    haversine_distance p q = 6371 * Real.arccos (dot3 (sphVec p) (sphVec q)) := by
  have hdot := one_sub_two_havA p q
  have hb := dot3_unit_bounds (dot3_self_sphVec p) (dot3_self_sphVec q)
  have h0 : 0 ≤ havA p q := by nlinarith [hb.2, hdot]
  have h1 : havA p q ≤ 1 := by nlinarith [hb.1, hdot]
  have h2 := two_atan2_sqrt_eq_arccos h0 h1
  show (6371.0 : ℝ) *
    (2 * atan2 (Real.sqrt (havA p q)) (Real.sqrt (1 - havA p q))) = _
  rw [h2, hdot]
  norm_num

/-- The determinant of the 3×3 matrix with rows `u`, `v`, `w`. -/
def det3 (u v w : ℝ × ℝ × ℝ) : ℝ :=
  u.1 * (v.2.1 * w.2.2 - v.2.2 * w.2.1) - u.2.1 * (v.1 * w.2.2 - v.2.2 * w.1) +
    u.2.2 * (v.1 * w.2.1 - v.2.1 * w.1)

lemma gram_identity (u v w : ℝ × ℝ × ℝ) :
    dot3 u u * dot3 v v * dot3 w w + 2 * dot3 u v * dot3 v w * dot3 u w -
      dot3 u u * dot3 v w ^ 2 - dot3 v v * dot3 u w ^ 2 - dot3 w w * dot3 u v ^ 2 =
      det3 u v w ^ 2 := by
  simp only [dot3, det3]
  ring

lemma arccos_antitone {x y : ℝ} (h : x ≤ y) : Real.arccos y ≤ Real.arccos x := by
  rw [Real.arccos_eq_pi_div_two_sub_arcsin, Real.arccos_eq_pi_div_two_sub_arcsin]
  linarith [Real.monotone_arcsin h]

lemma arccos_dot3_triangle {u v w : ℝ × ℝ × ℝ}
    (hu : dot3 u u = 1) (hv : dot3 v v = 1) (hw : dot3 w w = 1) :
    Real.arccos (dot3 u w) ≤ Real.arccos (dot3 u v) + Real.arccos (dot3 v w) := by
  have hb1 := dot3_unit_bounds hu hv
  have hb2 := dot3_unit_bounds hv hw
  have hb3 := dot3_unit_bounds hu hw
  have hgram : 0 ≤ 1 + 2 * (dot3 u v * (dot3 v w * dot3 u w)) -
      dot3 u v ^ 2 - dot3 v w ^ 2 - dot3 u w ^ 2 := by
    have h := gram_identity u v w
    rw [hu, hv, hw] at h
    nlinarith [sq_nonneg (det3 u v w), h]
  have h1 : (0 : ℝ) ≤ 1 - dot3 u v ^ 2 := by nlinarith [hb1.1, hb1.2]
  have h2 : (0 : ℝ) ≤ 1 - dot3 v w ^ 2 := by nlinarith [hb2.1, hb2.2]
  have hkey : dot3 u v * dot3 v w -
      Real.sqrt (1 - dot3 u v ^ 2) * Real.sqrt (1 - dot3 v w ^ 2) ≤ dot3 u w := by
    rcases le_or_lt (dot3 u v * dot3 v w - dot3 u w) 0 with hle | hpos
    · have hnn := mul_nonneg (Real.sqrt_nonneg (1 - dot3 u v ^ 2))
        (Real.sqrt_nonneg (1 - dot3 v w ^ 2))
      linarith
    · have hsq : (dot3 u v * dot3 v w - dot3 u w) ^ 2 ≤
          (1 - dot3 u v ^ 2) * (1 - dot3 v w ^ 2) := by nlinarith [hgram]
      have hchain : dot3 u v * dot3 v w - dot3 u w ≤
          Real.sqrt ((1 - dot3 u v ^ 2) * (1 - dot3 v w ^ 2)) := by
        calc dot3 u v * dot3 v w - dot3 u w
            = Real.sqrt ((dot3 u v * dot3 v w - dot3 u w) ^ 2) :=
              (Real.sqrt_sq hpos.le).symm
          _ ≤ Real.sqrt ((1 - dot3 u v ^ 2) * (1 - dot3 v w ^ 2)) :=
              Real.sqrt_le_sqrt hsq
      rw [Real.sqrt_mul h1] at hchain
      linarith
  have hα0 : 0 ≤ Real.arccos (dot3 u v) := Real.arccos_nonneg _
  have hβ0 : 0 ≤ Real.arccos (dot3 v w) := Real.arccos_nonneg _
  rcases le_or_lt Real.pi (Real.arccos (dot3 u v) + Real.arccos (dot3 v w)) with hge | hlt
  · linarith [Real.arccos_le_pi (dot3 u w)]
  · have hcos : Real.cos (Real.arccos (dot3 u v) + Real.arccos (dot3 v w)) =
        dot3 u v * dot3 v w -
          Real.sqrt (1 - dot3 u v ^ 2) * Real.sqrt (1 - dot3 v w ^ 2) := by
      rw [Real.cos_add, Real.cos_arccos hb1.1 hb1.2, Real.cos_arccos hb2.1 hb2.2,
        Real.sin_arccos, Real.sin_arccos]
    have hmono : Real.arccos (dot3 u w) ≤
        Real.arccos (Real.cos (Real.arccos (dot3 u v) + Real.arccos (dot3 v w))) := by
      apply arccos_antitone
      rw [hcos]
      exact hkey
    rwa [Real.arccos_cos (by linarith) (le_of_lt hlt)] at hmono

/-- C9 (amended): `haversine_distance` is a total function on real
coordinates that is symmetric, non-negative and bounded by `6371·π` (hence
finite), vanishes on equal inputs, and satisfies the triangle inequality.
The converse of the vanishing clause is false: distinct valid coordinates
can denote the same point of the sphere (see the counterexample at the
pole), so "zero iff equal" must weaken to "zero if equal". -/
theorem c9_haversine_metric_properties :
    (∀ p q : ℝ × ℝ, haversine_distance p q = haversine_distance q p) ∧
    (∀ p q : ℝ × ℝ, 0 ≤ haversine_distance p q ∧
      haversine_distance p q ≤ 6371 * Real.pi) ∧
    (∀ p : ℝ × ℝ, haversine_distance p p = 0) ∧
    (∀ p q r : ℝ × ℝ,
      haversine_distance p r ≤ haversine_distance p q + haversine_distance q r) := by
  refine ⟨?_, ?_, ?_, ?_⟩
  · intro p q
    rw [haversine_eq_arccos, haversine_eq_arccos, dot3_comm]
  · intro p q
    rw [haversine_eq_arccos]
    constructor
    · have := Real.arccos_nonneg (dot3 (sphVec p) (sphVec q))
      nlinarith
    · have := Real.arccos_le_pi (dot3 (sphVec p) (sphVec q))
      nlinarith
  · intro p
    rw [haversine_eq_arccos, dot3_self_sphVec, Real.arccos_one, mul_zero]
  · intro p q r
    rw [haversine_eq_arccos, haversine_eq_arccos, haversine_eq_arccos]
    have h := arccos_dot3_triangle (dot3_self_sphVec p) (dot3_self_sphVec q)
      (dot3_self_sphVec r)
    nlinarith [h]

/-- C9 counterexample: the two valid coordinates `(90, 0)` and `(90, 10)`
(both at the north pole) are distinct yet have haversine distance zero, so
"zero if and only if `a == b`" fails. -/
theorem c9_counterexample :
    haversine_distance (90, 0) (90, 10) = 0 ∧
    ((90 : ℝ), (0 : ℝ)) ≠ ((90 : ℝ), (10 : ℝ)) ∧
    |(90 : ℝ)| ≤ 90 ∧ |(0 : ℝ)| ≤ 180 ∧ |(10 : ℝ)| ≤ 180 := by
  refine ⟨?_, by norm_num [Prod.ext_iff], by norm_num, by norm_num, by norm_num⟩
  rw [haversine_eq_arccos]
  have h90 : radians 90 = Real.pi / 2 := by rw [radians]; ring
  have hdot : dot3 (sphVec (90, 0)) (sphVec (90, 10)) = 1 := by
    simp only [dot3, sphVec, h90, Real.cos_pi_div_two, Real.sin_pi_div_two]
    ring
  rw [hdot, Real.arccos_one, mul_zero]

end Haversine
